import Mathlib

/-!
Shallow embedding of the Qt4 input-hook module (IPython/lib/inputhookqt4.py)
and of two helpers of the bootstrap script (ipython3.py), with theorems
settling the specification claims about them.

The input hook is modelled as an effect-trace semantics: a call to the idle
callback, given an environment describing what the external world does
(whether a Qt application instance exists, the successive results of the
stdin readiness probe, and where an exception is raised, if anywhere),
produces the list of observable effects the Python code performs, the final
shared state, the returned status code, and the exception escaping the
callback, if any.
-/

namespace InputHookQt4

/-- Exceptions distinguished by the two except clauses of inputhook_qt4:
KeyboardInterrupt, and every other exception. -/
inductive Exn
  | kbdint
  | other
deriving DecidableEq, Repr

/-- Observable effects performed by the hook code, in program order:
allow_CTRL_C / ignore_CTRL_C, app.processEvents, connecting and
disconnecting the timer or socket notifier to app.quit, running the Qt
event loop (app.exec_), printing a message, print_exc, writing the shared
got_kbdint flag, mgr.clear_inputhook and mgr.set_inputhook. -/
inductive Eff
  | allowCtrlC
  | ignoreCtrlC
  | processEvents
  | connectWatcher
  | disconnectWatcher
  | execLoop
  | printMsg (s : String)
  | printExc
  | setPending (b : Bool)
  | clearInputhook
  | setInputhook
deriving DecidableEq, Repr

/-- The state shared between the two hooks and the manager: the
got_kbdint flag captured by both closures, whether the idle callback is
currently registered with the InputHookManager, and whether CTRL+C is
currently allowed at the platform level. -/
structure HookState where
  got_kbdint : Bool
  hook_registered : Bool
  ctrl_c_allowed : Bool
deriving DecidableEq, Repr

/-- How each effect updates the shared state. Printing and event
processing do not touch it. -/
def applyEff (s : HookState) : Eff → HookState
  | Eff.allowCtrlC => { s with ctrl_c_allowed := true }
  | Eff.ignoreCtrlC => { s with ctrl_c_allowed := false }
  | Eff.setPending b => { s with got_kbdint := b }
  | Eff.clearInputhook => { s with hook_registered := false }
  | Eff.setInputhook => { s with hook_registered := true }
  | _ => s

/-- Environment of one invocation of the idle callback: whether
QCoreApplication.instance() returns an application, whether the platform
is win32, the successive results of stdin_ready() (an exhausted list is
read as ready, so every run terminates), whether app.processEvents raises
and what, and whether the k-th app.exec_ call raises and what. -/
structure CallEnv where
  appExists : Bool
  win32 : Bool
  stdinSeq : List Bool
  exnProcessEvents : Option Exn
  exnExec : Option (Nat × Exn)
deriving DecidableEq, Repr

/-- The win32 wait loop: while not stdin_ready(): timer.start(50);
app.exec_(); timer.stop(). Returns the effects of the loop and the
exception raised during some exec_ call, if any; k numbers the exec_
calls made so far. -/
def win32Loop (exnExec : Option (Nat × Exn)) (k : Nat) :
    List Bool → List Eff × Option Exn
  | [] => ([], none)
  | ready :: rest =>
    if ready then ([], none)
    else
      match exnExec with
      | some (j, e) =>
        if j = k then ([Eff.execLoop], some e)
        else
          let r := win32Loop exnExec (k + 1) rest
          (Eff.execLoop :: r.1, r.2)
      | none =>
        let r := win32Loop exnExec (k + 1) rest
        (Eff.execLoop :: r.1, r.2)

/-- The wait-for-input phase of inputhook_qt4, entered when stdin is not
ready after the processEvents burst. On win32 a QTimer is connected to
app.quit and the polling loop runs; elsewhere a QSocketNotifier on fd 0 is
connected to app.quit and the event loop runs once. In the source the
disconnect call follows the loop with no try/finally, so it is reached
only when no exception is raised. -/
def waitPhase (env : CallEnv) (seq : List Bool) : List Eff × Option Exn :=
  if env.win32 then
    let r := win32Loop env.exnExec 0 seq
    (Eff.connectWatcher :: r.1 ++
      (if r.2.isNone then [Eff.disconnectWatcher] else []), r.2)
  else
    match env.exnExec with
    | some (0, e) => ([Eff.connectWatcher, Eff.execLoop], some e)
    | _ => ([Eff.connectWatcher, Eff.execLoop, Eff.disconnectWatcher], none)

/-- The try block of inputhook_qt4: allow_CTRL_C(); resolve the
application (early return 0 when none); processEvents with a 300ms budget;
if stdin is not ready, the wait phase. Returns the effects performed and
the exception raised in the block, if any. -/
def hookBody (env : CallEnv) : List Eff × Option Exn :=
  if env.appExists = false then ([Eff.allowCtrlC], none)
  else
    match env.exnProcessEvents with
    | some e => ([Eff.allowCtrlC, Eff.processEvents], some e)
    | none =>
      match env.stdinSeq with
      | [] => ([Eff.allowCtrlC, Eff.processEvents], none)
      | true :: _ => ([Eff.allowCtrlC, Eff.processEvents], none)
      | false :: rest =>
        let w := waitPhase env rest
        (Eff.allowCtrlC :: Eff.processEvents :: w.1, w.2)

def kbdintNotice : String := "\nKeyboardInterrupt - Ctrl-C again for new prompt"

def unregisterNotice : String := "Got exception from inputhook_qt4, unregistering."

/-- Effects of the two except clauses. KeyboardInterrupt: ignore_CTRL_C,
got_kbdint[0] = True, print the notice, mgr.clear_inputhook. Any other
exception (the bare except): ignore_CTRL_C, print_exc, print the
unregister notice, mgr.clear_inputhook. -/
def handlerEffects : Option Exn → List Eff
  | none => []
  | some Exn.kbdint =>
    [Eff.ignoreCtrlC, Eff.setPending true, Eff.printMsg kbdintNotice,
     Eff.clearInputhook]
  | some Exn.other =>
    [Eff.ignoreCtrlC, Eff.printExc, Eff.printMsg unregisterNotice,
     Eff.clearInputhook]

/-- The exception escaping the callback. The except KeyboardInterrupt
clause catches kbdint, the bare except clause catches everything else,
and neither handler body raises, so nothing escapes in any case. -/
def escapedAfter : Option Exn → Option Exn
  | _ => none

/-- Result of one invocation of the idle callback: the full effect
trace, the resulting shared state, the returned status code, and the
escaping exception, if any. -/
structure CallResult where
  trace : List Eff
  state : HookState
  ret : Nat
  escaped : Option Exn
deriving Repr

/-- One invocation of inputhook_qt4: the try block, then the matching
except clause (if an exception was raised), then the finally clause
(allow_CTRL_C, run on every path, the early return 0 included), then
return 0. -/
def inputhook_qt4 (env : CallEnv) (s : HookState) : CallResult :=
  { trace := (hookBody env).1 ++ handlerEffects (hookBody env).2 ++ [Eff.allowCtrlC]
    state := ((hookBody env).1 ++ handlerEffects (hookBody env).2 ++
      [Eff.allowCtrlC]).foldl applyEff s
    ret := 0
    escaped := escapedAfter (hookBody env).2 }

/-- One invocation of preprompthook_qt4: if got_kbdint[0] then
mgr.set_inputhook(inputhook_qt4); then unconditionally
got_kbdint[0] = False. Returns the effect trace and the new state. -/
def preprompthook_qt4 (s : HookState) : List Eff × HookState :=
  let effs := (if s.got_kbdint then [Eff.setInputhook] else [])
      ++ [Eff.setPending false]
  (effs, effs.foldl applyEff s)

/-- Whether an invocation with this environment enters the
KeyboardInterrupt handler. -/
def interruptCaught (env : CallEnv) : Bool :=
  match (hookBody env).2 with
  | some Exn.kbdint => true
  | _ => false

/-- An event of the session-level trace: an invocation of the idle
callback with a given environment, or an invocation of the restoration
callback before a prompt. -/
inductive SessionEvent
  | idle (env : CallEnv)
  | preprompt
deriving DecidableEq, Repr

/-- State transition of one session event. -/
def stepSession (s : HookState) : SessionEvent → HookState
  | SessionEvent.idle env => (inputhook_qt4 env s).state
  | SessionEvent.preprompt => (preprompthook_qt4 s).2

/-- Run a sequence of session events from a state. -/
def runSession (s : HookState) : List SessionEvent → HookState :=
  List.foldl stepSession s

/-- The state right after create_inputhook_qt4 installs the hooks:
got_kbdint fresh and false, the idle callback registered, CTRL+C
allowed. -/
def initHookState : HookState :=
  { got_kbdint := false, hook_registered := true, ctrl_c_allowed := true }

/-- Process- and session-wide state seen by create_inputhook_qt4: the
QCoreApplication singleton (by id), a source of fresh application ids,
the _inputhook_qt4 attribute on the interactive shell (the id of the
installed hook closure), and a source of fresh hook ids. -/
structure QtWorld where
  appInstance : Option Nat
  nextApp : Nat
  sessionHook : Option Nat
  nextHook : Nat
deriving DecidableEq, Repr

/-- create_inputhook_qt4(mgr, app): if app is None, take
QCoreApplication.instance(), creating a QApplication (which becomes the
singleton) when there is none; if the session already carries
_inputhook_qt4, return it with the resolved app; otherwise create the
hook pair, store the idle hook on the session and return it. Returns the
(app, hook) pair of ids and the new world. -/
def create_inputhook_qt4 (w : QtWorld) (app? : Option Nat) :
    (Nat × Nat) × QtWorld :=
  let resolved : Nat × QtWorld :=
    match app? with
    | some a => (a, w)
    | none =>
      match w.appInstance with
      | some a => (a, w)
      | none =>
        (w.nextApp,
         { w with appInstance := some w.nextApp, nextApp := w.nextApp + 1 })
  let app := resolved.1
  let w1 := resolved.2
  match w1.sessionHook with
  | some h => ((app, h), w1)
  | none =>
    ((app, w1.nextHook),
     { w1 with sessionHook := some w1.nextHook, nextHook := w1.nextHook + 1 })
end InputHookQt4

namespace IPython3

/-- Filesystem abstraction for Auto2to3SourceFileLoader._load_cached_2to3:
os.stat giving the mtime (none models FileNotFoundError) and the raw
bytes SourceFileLoader.get_data reads from a present file. -/
structure FS where
  stat : String → Option Int
  get_data : String → List Nat

/-- Auto2to3SourceFileLoader._load_cached_2to3(path, cache): stat both
files (a missing one raises FileNotFoundError, caught and turned into
None); if cache_stats.st_mtime <= source_stats.st_mtime the cache is
stale and None is returned; otherwise the cached bytes are returned. -/
def load_cached_2to3 (fs : FS) (path cache : String) : Option (List Nat) :=
  match fs.stat cache, fs.stat path with
  | some cache_mtime, some source_mtime =>
    if cache_mtime ≤ source_mtime then none
    else some (fs.get_data cache)
  | _, _ => none

/-- The finder Auto2to3FileFinder(path, ...) built by the path hook; only
the path matters to the claims. -/
structure Auto2to3FileFinder where
  path : String
deriving DecidableEq, Repr

/-- The closure returned by Auto2to3FileFinder.predicated_path_hook:
raise ImportError when the path is not a directory, raise ImportError
when the predicate rejects it, otherwise build the finder for the
path. -/
def predicated_path_hook_for_FileFinder (isdir predicate : String → Bool)
    (path : String) : Except String Auto2to3FileFinder :=
  if isdir path = false then Except.error "only directories are supported"
  else if predicate path = false then Except.error "predicate not satisfied"
  else Except.ok { path := path }

end IPython3

namespace InputHookQt4

/-- Every effect of the win32 polling loop is a run of the event loop. -/
theorem win32Loop_mem (x : Option (Nat × Exn)) (seq : List Bool) :
    ∀ (k : Nat) (e : Eff), e ∈ (win32Loop x k seq).1 → e = Eff.execLoop := by
  induction seq with
  | nil => intro k e h; simp [win32Loop] at h
  | cons b rest ih =>
    intro k e h
    by_cases hb : b
    · simp [win32Loop, hb] at h
    · rcases x with _ | ⟨j, ex⟩
      · simp [win32Loop, hb] at h
        rcases h with h | h
        · exact h
        · exact ih (k + 1) e h
      · by_cases hj : j = k
        · simp [win32Loop, hb, hj] at h
          exact h
        · simp [win32Loop, hb, hj] at h
          rcases h with h | h
          · exact h
          · exact ih (k + 1) e h

/-- Every effect of the try block is one of: allow_CTRL_C, processEvents,
watcher connect, event loop run, watcher disconnect. In particular the
body never writes the got_kbdint flag and never suppresses CTRL+C. -/
theorem hookBody_mem (env : CallEnv) :
    ∀ e ∈ (hookBody env).1,
      e = Eff.allowCtrlC ∨ e = Eff.processEvents ∨ e = Eff.connectWatcher ∨
      e = Eff.execLoop ∨ e = Eff.disconnectWatcher := by
  intro e h
  by_cases ha : env.appExists = false
  · simp [hookBody, ha] at h
    simp [h]
  · rcases hpe : env.exnProcessEvents with _ | ex
    · rcases hs : env.stdinSeq with _ | ⟨b, rest⟩
      · simp [hookBody, ha, hpe, hs] at h
        rcases h with h | h <;> simp [h]
      · by_cases hb : b
        · subst hb
          simp [hookBody, ha, hpe, hs] at h
          rcases h with h | h <;> simp [h]
        · have hb' : b = false := by
            cases b
            · rfl
            · exact absurd rfl hb
          subst hb'
          simp [hookBody, ha, hpe, hs] at h
          rcases h with h | h | h
          · simp [h]
          · simp [h]
          · by_cases hw : env.win32
            · simp [waitPhase, hw] at h
              rcases h with h | h | h
              · simp [h]
              · have := win32Loop_mem env.exnExec rest 0 e h
                simp [this]
              · rcases h with ⟨-, h⟩
                simp [h]
            · rcases hx : env.exnExec with _ | ⟨j, ex2⟩
              · simp [waitPhase, hw, hx] at h
                rcases h with h | h | h <;> simp [h]
              · rcases j with _ | j
                · simp [waitPhase, hw, hx] at h
                  rcases h with h | h <;> simp [h]
                · simp [waitPhase, hw, hx] at h
                  rcases h with h | h | h <;> simp [h]
    · simp [hookBody, ha, hpe] at h
      rcases h with h | h <;> simp [h]

/-- Effects other than writes of the flag leave got_kbdint unchanged. -/
theorem foldl_applyEff_got_kbdint (effs : List Eff)
    (hno : ∀ b, Eff.setPending b ∉ effs) :
    ∀ s : HookState, (effs.foldl applyEff s).got_kbdint = s.got_kbdint := by
  induction effs with
  | nil => intro s; rfl
  | cons e rest ih =>
    intro s
    have hrest : ∀ b, Eff.setPending b ∉ rest := by
      intro b hb
      exact hno b (List.mem_cons_of_mem e hb)
    have hstep : (applyEff s e).got_kbdint = s.got_kbdint := by
      cases e with
      | setPending b => exact absurd (List.mem_cons_self _ _) (hno b)
      | allowCtrlC => rfl
      | ignoreCtrlC => rfl
      | processEvents => rfl
      | connectWatcher => rfl
      | disconnectWatcher => rfl
      | execLoop => rfl
      | printMsg m => rfl
      | printExc => rfl
      | clearInputhook => rfl
      | setInputhook => rfl
    rw [List.foldl_cons, ih hrest, hstep]

/-- The try block never writes the got_kbdint flag. -/
theorem hookBody_no_setPending (env : CallEnv) (b : Bool) :
    Eff.setPending b ∉ (hookBody env).1 := by
  intro h
  rcases hookBody_mem env _ h with h' | h' | h' | h' | h' <;> cases h'

/-- Unfolding of the trace of one idle-callback invocation: body effects,
then handler effects, then the finally clause. -/
theorem inputhook_qt4_trace_def (env : CallEnv) (s : HookState) :
    (inputhook_qt4 env s).trace =
      (hookBody env).1 ++ handlerEffects (hookBody env).2 ++ [Eff.allowCtrlC] := rfl

/-- Unfolding of the state of one idle-callback invocation. -/
theorem inputhook_qt4_state_def (env : CallEnv) (s : HookState) :
    (inputhook_qt4 env s).state =
      ((hookBody env).1 ++ handlerEffects (hookBody env).2 ++
        [Eff.allowCtrlC]).foldl applyEff s := rfl

/-- The got_kbdint flag after one idle-callback invocation: set when the
KeyboardInterrupt handler ran, otherwise unchanged. -/
theorem inputhook_qt4_got_kbdint (env : CallEnv) (s : HookState) :
    (inputhook_qt4 env s).state.got_kbdint =
      (s.got_kbdint || interruptCaught env) := by
  have h1 : (inputhook_qt4 env s).state =
      (handlerEffects (hookBody env).2 ++ [Eff.allowCtrlC]).foldl applyEff
        ((hookBody env).1.foldl applyEff s) := by
    rw [inputhook_qt4_state_def, List.append_assoc, List.foldl_append]
  have h2 : ((hookBody env).1.foldl applyEff s).got_kbdint = s.got_kbdint :=
    foldl_applyEff_got_kbdint _ (fun b => hookBody_no_setPending env b) s
  rw [h1]
  rcases hx : (hookBody env).2 with _ | ex
  · simp [handlerEffects, interruptCaught, hx, applyEff, h2]
  · cases ex
    · simp [handlerEffects, interruptCaught, hx, applyEff, h2]
    · simp [handlerEffects, interruptCaught, hx, applyEff, h2]

/-- C1: when the try block raises any exception other than KeyboardInterrupt,
the bare except clause runs: the interrupt signal is suppressed
(ignore_CTRL_C), a diagnostic is logged (print_exc and the unregister
notice), the hook is unregistered via mgr.clear_inputhook, the callback
still returns status 0, and no exception propagates out of it. -/
theorem inputhook_qt4_other_exception_contained (env : CallEnv) (s : HookState)
    (h : (hookBody env).2 = some Exn.other) :
    (inputhook_qt4 env s).ret = 0 ∧
    (inputhook_qt4 env s).escaped = none ∧
    (inputhook_qt4 env s).state.hook_registered = false ∧
    Eff.ignoreCtrlC ∈ (inputhook_qt4 env s).trace ∧
    Eff.printExc ∈ (inputhook_qt4 env s).trace ∧
    Eff.printMsg unregisterNotice ∈ (inputhook_qt4 env s).trace ∧
    Eff.clearInputhook ∈ (inputhook_qt4 env s).trace := by
  refine ⟨rfl, rfl, ?_, ?_, ?_, ?_, ?_⟩
  · rw [inputhook_qt4_state_def, h]
    simp [handlerEffects, applyEff, List.foldl_append]
  · rw [inputhook_qt4_trace_def, h]
    simp [handlerEffects]
  · rw [inputhook_qt4_trace_def, h]
    simp [handlerEffects]
  · rw [inputhook_qt4_trace_def, h]
    simp [handlerEffects]
  · rw [inputhook_qt4_trace_def, h]
    simp [handlerEffects]

/-- C1 witness: a concrete environment in which processEvents raises a
non-interrupt exception. -/
theorem inputhook_qt4_other_exception_contained_witness :
    (hookBody ⟨true, false, [], some Exn.other, none⟩).2 = some Exn.other ∧
    ((inputhook_qt4 ⟨true, false, [], some Exn.other, none⟩ initHookState).ret = 0 ∧
     (inputhook_qt4 ⟨true, false, [], some Exn.other, none⟩ initHookState).escaped = none ∧
     (inputhook_qt4 ⟨true, false, [], some Exn.other, none⟩
       initHookState).state.hook_registered = false ∧
     Eff.ignoreCtrlC ∈
       (inputhook_qt4 ⟨true, false, [], some Exn.other, none⟩ initHookState).trace ∧
     Eff.printExc ∈
       (inputhook_qt4 ⟨true, false, [], some Exn.other, none⟩ initHookState).trace ∧
     Eff.printMsg unregisterNotice ∈
       (inputhook_qt4 ⟨true, false, [], some Exn.other, none⟩ initHookState).trace ∧
     Eff.clearInputhook ∈
       (inputhook_qt4 ⟨true, false, [], some Exn.other, none⟩ initHookState).trace) :=
  ⟨by decide,
   inputhook_qt4_other_exception_contained ⟨true, false, [], some Exn.other, none⟩
     initHookState (by decide)⟩

/-- C2: when a KeyboardInterrupt is raised during event processing, the same
invocation sets got_kbdint to true, deactivates the hook via
mgr.clear_inputhook, prints the one-line notice, returns 0, and lets no
exception escape. -/
theorem inputhook_qt4_kbdint_contained (env : CallEnv) (s : HookState)
    (h : (hookBody env).2 = some Exn.kbdint) :
    (inputhook_qt4 env s).state.got_kbdint = true ∧
    (inputhook_qt4 env s).state.hook_registered = false ∧
    Eff.clearInputhook ∈ (inputhook_qt4 env s).trace ∧
    Eff.printMsg kbdintNotice ∈ (inputhook_qt4 env s).trace ∧
    (inputhook_qt4 env s).ret = 0 ∧
    (inputhook_qt4 env s).escaped = none := by
  refine ⟨?_, ?_, ?_, ?_, rfl, rfl⟩
  · rw [inputhook_qt4_state_def, h]
    simp [handlerEffects, applyEff, List.foldl_append]
  · rw [inputhook_qt4_state_def, h]
    simp [handlerEffects, applyEff, List.foldl_append]
  · rw [inputhook_qt4_trace_def, h]
    simp [handlerEffects]
  · rw [inputhook_qt4_trace_def, h]
    simp [handlerEffects]

/-- C2 witness: a concrete environment in which the event loop raises
KeyboardInterrupt on the notifier path. -/
theorem inputhook_qt4_kbdint_contained_witness :
    (hookBody ⟨true, false, [false], none, some (0, Exn.kbdint)⟩).2 = some Exn.kbdint ∧
    ((inputhook_qt4 ⟨true, false, [false], none, some (0, Exn.kbdint)⟩
       initHookState).state.got_kbdint = true ∧
     (inputhook_qt4 ⟨true, false, [false], none, some (0, Exn.kbdint)⟩
       initHookState).state.hook_registered = false ∧
     Eff.clearInputhook ∈
       (inputhook_qt4 ⟨true, false, [false], none, some (0, Exn.kbdint)⟩
         initHookState).trace ∧
     Eff.printMsg kbdintNotice ∈
       (inputhook_qt4 ⟨true, false, [false], none, some (0, Exn.kbdint)⟩
         initHookState).trace ∧
     (inputhook_qt4 ⟨true, false, [false], none, some (0, Exn.kbdint)⟩
       initHookState).ret = 0 ∧
     (inputhook_qt4 ⟨true, false, [false], none, some (0, Exn.kbdint)⟩
       initHookState).escaped = none) :=
  ⟨by decide,
   inputhook_qt4_kbdint_contained ⟨true, false, [false], none, some (0, Exn.kbdint)⟩
     initHookState (by decide)⟩

/-- C3: when the pending flag is true, preprompthook_qt4 re-registers the
idle callback (mgr.set_inputhook) and then clears the flag; when the flag
is already false, it performs no state change and registers nothing, so a
second consecutive invocation is a no-op. -/
theorem preprompthook_qt4_restores_hook (s : HookState) :
    (s.got_kbdint = true →
      (preprompthook_qt4 s).1 = [Eff.setInputhook, Eff.setPending false] ∧
      (preprompthook_qt4 s).2.hook_registered = true ∧
      (preprompthook_qt4 s).2.got_kbdint = false) ∧
    (s.got_kbdint = false →
      (preprompthook_qt4 s).1 = [Eff.setPending false] ∧
      (preprompthook_qt4 s).2 = s) ∧
    (preprompthook_qt4 (preprompthook_qt4 s).2).2 = (preprompthook_qt4 s).2 := by
  rcases s with ⟨g, hr, c⟩
  cases g <;> simp [preprompthook_qt4, applyEff]

/-- C3 witness: the restoration callback run on a state with the flag set
after an interrupt. -/
theorem preprompthook_qt4_restores_hook_witness :
    (preprompthook_qt4 ⟨true, false, true⟩).1 =
      [Eff.setInputhook, Eff.setPending false] ∧
    (preprompthook_qt4 ⟨true, false, true⟩).2.hook_registered = true ∧
    (preprompthook_qt4 ⟨true, false, true⟩).2.got_kbdint = false :=
  (preprompthook_qt4_restores_hook ⟨true, false, true⟩).1 rfl

/-- C4 counterexample: with an application instance 1 present and a hook
installed by the first call, a second call that passes the explicit handle
5 returns the pair (5, hook), not the pair (1, hook) the first call
returned: the claimed identity of the (app, hook) pair fails. -/
theorem create_inputhook_qt4_pair_changes :
    (create_inputhook_qt4
        (create_inputhook_qt4 ⟨some 1, 2, none, 0⟩ (some 1)).2 (some 5)).1 ≠
      (create_inputhook_qt4 ⟨some 1, 2, none, 0⟩ (some 1)).1 := by decide

/-- C4 amended: two consecutive calls of create_inputhook_qt4 on the same
session always return the identical hook (the second call finds the
session attribute and creates no duplicate), and when neither call
supplies an explicit application handle the whole result, the (app, hook)
pair included, is identical. -/
theorem create_inputhook_qt4_hook_idempotent (w : QtWorld) (a b : Option Nat) :
    (create_inputhook_qt4 (create_inputhook_qt4 w a).2 b).1.2 =
      (create_inputhook_qt4 w a).1.2 ∧
    (a = none → b = none →
      create_inputhook_qt4 (create_inputhook_qt4 w a).2 b =
        create_inputhook_qt4 w a) := by
  rcases w with ⟨ai, na, sh, nh⟩
  rcases a with _ | a <;> rcases b with _ | b <;>
    rcases ai with _ | a0 <;> rcases sh with _ | h0 <;>
      simp [create_inputhook_qt4]

/-- C4 witness: both calls on a fresh world with no explicit handle. -/
theorem create_inputhook_qt4_hook_idempotent_witness :
    (create_inputhook_qt4 (create_inputhook_qt4 ⟨none, 0, none, 0⟩ none).2 none).1.2 =
      (create_inputhook_qt4 ⟨none, 0, none, 0⟩ none).1.2 ∧
    create_inputhook_qt4 (create_inputhook_qt4 ⟨none, 0, none, 0⟩ none).2 none =
      create_inputhook_qt4 ⟨none, 0, none, 0⟩ none :=
  ⟨(create_inputhook_qt4_hook_idempotent ⟨none, 0, none, 0⟩ none none).1,
   (create_inputhook_qt4_hook_idempotent ⟨none, 0, none, 0⟩ none none).2 rfl rfl⟩

/-- C8: calling create_inputhook_qt4 with no application handle creates
exactly one new application when no instance exists (the fresh id is
returned, becomes the singleton, and the id source advances by one), and
returns the existing instance unchanged, creating nothing, when one
exists. -/
theorem create_inputhook_qt4_app_singleton (w : QtWorld) :
    (w.appInstance = none →
      (create_inputhook_qt4 w none).1.1 = w.nextApp ∧
      (create_inputhook_qt4 w none).2.appInstance = some w.nextApp ∧
      (create_inputhook_qt4 w none).2.nextApp = w.nextApp + 1) ∧
    (∀ a, w.appInstance = some a →
      (create_inputhook_qt4 w none).1.1 = a ∧
      (create_inputhook_qt4 w none).2.appInstance = some a ∧
      (create_inputhook_qt4 w none).2.nextApp = w.nextApp) := by
  rcases w with ⟨ai, na, sh, nh⟩
  rcases ai with _ | a0 <;> rcases sh with _ | h0 <;>
    simp [create_inputhook_qt4]

/-- C8 witness: a fresh world with no application instance. -/
theorem create_inputhook_qt4_app_singleton_witness :
    (create_inputhook_qt4 ⟨none, 5, none, 0⟩ none).1.1 = 5 ∧
    (create_inputhook_qt4 ⟨none, 5, none, 0⟩ none).2.appInstance = some 5 ∧
    (create_inputhook_qt4 ⟨none, 5, none, 0⟩ none).2.nextApp = 5 + 1 :=
  (create_inputhook_qt4_app_singleton ⟨none, 5, none, 0⟩).1 rfl

/-- C6: every invocation of the idle callback, whatever branch it takes,
ends with the finally clause re-enabling CTRL+C (allow_CTRL_C is the last
effect of the trace, and the final state allows CTRL+C) and returns the
fixed status 0. -/
theorem inputhook_qt4_always_allows_ctrl_c (env : CallEnv) (s : HookState) :
    (inputhook_qt4 env s).ret = 0 ∧
    (inputhook_qt4 env s).state.ctrl_c_allowed = true ∧
    (inputhook_qt4 env s).trace.getLast? = some Eff.allowCtrlC := by
  refine ⟨rfl, ?_, ?_⟩
  · rw [inputhook_qt4_state_def, List.foldl_append]
    simp [applyEff]
  · rw [inputhook_qt4_trace_def]
    exact List.getLast?_concat _

end InputHookQt4

namespace IPython3

/-- C9: _load_cached_2to3 returns the cached bytes exactly when both files
stat successfully and the cache mtime is strictly greater than the source
mtime; it returns None exactly when a file is missing or the cache mtime
is less than or equal to the source mtime (equal timestamps are stale). -/
theorem load_cached_2to3_fresh_iff (fs : FS) (path cache : String) :
    ((∃ cm sm, fs.stat cache = some cm ∧ fs.stat path = some sm ∧ sm < cm) →
      load_cached_2to3 fs path cache = some (fs.get_data cache)) ∧
    (load_cached_2to3 fs path cache = none ↔
      fs.stat cache = none ∨ fs.stat path = none ∨
      ∃ cm sm, fs.stat cache = some cm ∧ fs.stat path = some sm ∧ cm ≤ sm) := by
  constructor
  · rintro ⟨cm, sm, hc, hp, hlt⟩
    simp [load_cached_2to3, hc, hp, not_le.mpr hlt]
  · rcases hc : fs.stat cache with _ | cm
    · simp [load_cached_2to3, hc]
    · rcases hp : fs.stat path with _ | sm
      · simp [load_cached_2to3, hc, hp]
      · by_cases hle : cm ≤ sm
        · simp [load_cached_2to3, hc, hp, hle]
        · simp [load_cached_2to3, hc, hp, hle]

/-- C9 witness: cache mtime 5, source mtime 3, so the cached bytes are
returned. -/
theorem load_cached_2to3_fresh_iff_witness :
    load_cached_2to3
        ⟨fun p => if p = "pkg/__pycache__/m.ipy2to3.py" then some 5 else some 3,
         fun _ => [104, 105]⟩
        "pkg/m.py" "pkg/__pycache__/m.ipy2to3.py" =
      some ((⟨fun p => if p = "pkg/__pycache__/m.ipy2to3.py" then some 5 else some 3,
         fun _ => [104, 105]⟩ : FS).get_data "pkg/__pycache__/m.ipy2to3.py") :=
  (load_cached_2to3_fresh_iff _ "pkg/m.py" "pkg/__pycache__/m.ipy2to3.py").1
    ⟨5, 3, by simp, by simp, by norm_num⟩

/-- C10: the closure built by predicated_path_hook raises ImportError
exactly when the path is not a directory or the predicate rejects it, and
otherwise returns a finder constructed for that path; a finder is never
produced for a path failing the predicate. -/
theorem predicated_path_hook_importerror_iff (isdir predicate : String → Bool)
    (path : String) :
    ((∃ msg, predicated_path_hook_for_FileFinder isdir predicate path =
        Except.error msg) ↔
      isdir path = false ∨ predicate path = false) ∧
    (isdir path = true → predicate path = true →
      predicated_path_hook_for_FileFinder isdir predicate path =
        Except.ok ⟨path⟩) := by
  cases hd : isdir path <;> cases hp : predicate path <;>
    simp [predicated_path_hook_for_FileFinder, hd, hp]

/-- C10 witness: a directory accepted by the predicate yields the finder
for it. -/
theorem predicated_path_hook_importerror_iff_witness :
    predicated_path_hook_for_FileFinder (fun _ => true) (fun _ => true)
        "somedir" = Except.ok ⟨"somedir"⟩ :=
  (predicated_path_hook_importerror_iff (fun _ => true) (fun _ => true)
    "somedir").2 rfl rfl

end IPython3

namespace InputHookQt4

/-- Whether the watcher is disconnected in the try block, by exit kind:
on a clean exit a connect is always matched by a disconnect; after an
exception the disconnect following the event loop was never reached. -/
theorem hookBody_disconnect (env : CallEnv) :
    ((hookBody env).2 = none → Eff.connectWatcher ∈ (hookBody env).1 →
      Eff.disconnectWatcher ∈ (hookBody env).1) ∧
    ((hookBody env).2 ≠ none → Eff.disconnectWatcher ∉ (hookBody env).1) := by
  by_cases ha : env.appExists = false
  · simp [hookBody, ha]
  · rcases hpe : env.exnProcessEvents with _ | ex
    · rcases hs : env.stdinSeq with _ | ⟨b, rest⟩
      · simp [hookBody, ha, hpe, hs]
      · cases b
        · by_cases hw : env.win32
          · rcases hr : win32Loop env.exnExec 0 rest with ⟨le, x⟩
            have hle : Eff.disconnectWatcher ∉ le := by
              intro hm
              have hall := win32Loop_mem env.exnExec rest 0 Eff.disconnectWatcher
              rw [hr] at hall
              exact absurd (hall hm) (by simp)
            rcases x with _ | ex2
            · constructor
              · intro _ _
                simp [hookBody, ha, hpe, hs, waitPhase, hw, hr]
              · intro hne
                exact absurd (by simp [hookBody, ha, hpe, hs, waitPhase, hw, hr]) hne
            · constructor
              · intro hnone
                rw [show (hookBody env).2 = some ex2 by
                  simp [hookBody, ha, hpe, hs, waitPhase, hw, hr]] at hnone
                cases hnone
              · intro _
                simp [hookBody, ha, hpe, hs, waitPhase, hw, hr]
                exact hle
          · rcases hx : env.exnExec with _ | ⟨j, ex2⟩
            · simp [hookBody, ha, hpe, hs, waitPhase, hw, hx]
            · rcases j with _ | j
              · simp [hookBody, ha, hpe, hs, waitPhase, hw, hx]
              · simp [hookBody, ha, hpe, hs, waitPhase, hw, hx]
        · simp [hookBody, ha, hpe, hs]
    · simp [hookBody, ha, hpe]

/-- Membership in the full callback trace splits into the body, the
handler and the final allow_CTRL_C. -/
theorem mem_inputhook_qt4_trace (env : CallEnv) (s : HookState) (e : Eff) :
    e ∈ (inputhook_qt4 env s).trace ↔
      e ∈ (hookBody env).1 ∨ e ∈ handlerEffects (hookBody env).2 ∨
        e = Eff.allowCtrlC := by
  rw [inputhook_qt4_trace_def]
  simp [List.mem_append, or_assoc]

/-- Neither except clause disconnects a watcher. -/
theorem handlerEffects_no_disconnect (x : Option Exn) :
    Eff.disconnectWatcher ∉ handlerEffects x := by
  rcases x with _ | ex
  · simp [handlerEffects]
  · cases ex <;> simp [handlerEffects]

/-- C5 counterexample: on the notifier path with a KeyboardInterrupt
raised during app.exec_, the callback connects the notifier to app.quit
but returns without ever disconnecting it, against the claim that the
watcher is disconnected on every exit path. -/
theorem inputhook_qt4_interrupt_skips_disconnect :
    Eff.connectWatcher ∈
      (inputhook_qt4 ⟨true, false, [false], none, some (0, Exn.kbdint)⟩
        initHookState).trace ∧
    Eff.disconnectWatcher ∉
      (inputhook_qt4 ⟨true, false, [false], none, some (0, Exn.kbdint)⟩
        initHookState).trace := by decide

/-- C5 amended: the watcher connected to the event loop quit is
disconnected before the callback returns on the normal exit path (no
exception raised in the try block); when the wait is aborted by an
interrupt or any other exception, the callback returns without performing
the disconnect. -/
theorem inputhook_qt4_disconnect_only_on_clean_exit (env : CallEnv)
    (s : HookState) :
    ((hookBody env).2 = none →
      Eff.connectWatcher ∈ (inputhook_qt4 env s).trace →
      Eff.disconnectWatcher ∈ (inputhook_qt4 env s).trace) ∧
    ((hookBody env).2 ≠ none →
      Eff.disconnectWatcher ∉ (inputhook_qt4 env s).trace) := by
  constructor
  · intro hnone hc
    rw [mem_inputhook_qt4_trace]
    left
    apply (hookBody_disconnect env).1 hnone
    rw [mem_inputhook_qt4_trace] at hc
    rcases hc with h | h | h
    · exact h
    · rw [hnone] at h
      simp [handlerEffects] at h
    · cases h
  · intro hne hmem
    rw [mem_inputhook_qt4_trace] at hmem
    rcases hmem with h | h | h
    · exact (hookBody_disconnect env).2 hne h
    · exact handlerEffects_no_disconnect _ h
    · cases h

/-- C5 amended witness: a clean notifier-path wait disconnects before
returning. -/
theorem inputhook_qt4_disconnect_only_on_clean_exit_witness :
    (hookBody ⟨true, false, [false], none, none⟩).2 = none ∧
    Eff.disconnectWatcher ∈
      (inputhook_qt4 ⟨true, false, [false], none, none⟩ initHookState).trace :=
  ⟨by decide,
   (inputhook_qt4_disconnect_only_on_clean_exit
     ⟨true, false, [false], none, none⟩ initHookState).1 (by decide) (by decide)⟩

end InputHookQt4

namespace InputHookQt4

/-- Running a session trace extended by one event. -/
theorem runSession_snoc (s : HookState) (evs : List SessionEvent)
    (e : SessionEvent) :
    runSession s (evs ++ [e]) = stepSession (runSession s evs) e := by
  simp [runSession, List.foldl_append]

/-- The restoration callback always leaves the flag false. -/
theorem step_preprompt_got_kbdint (s : HookState) :
    (stepSession s SessionEvent.preprompt).got_kbdint = false := by
  rcases s with ⟨g, hr, c⟩
  cases g <;> simp [stepSession, preprompthook_qt4, applyEff]

/-- Decomposition of a snoc list written as some element with a prefix
and a suffix: the element is either the appended one or lies in the
original list. -/
theorem snoc_eq_append_cons {α : Type _} (xs : List α) (x a : α)
    (l r : List α) (h : xs ++ [x] = l ++ a :: r) :
    (r = [] ∧ l = xs ∧ a = x) ∨
      ∃ r2, r = r2 ++ [x] ∧ xs = l ++ a :: r2 := by
  rcases r.eq_nil_or_concat' with rfl | ⟨r2, y, rfl⟩
  · left
    have h2 := List.append_inj' h rfl
    refine ⟨rfl, h2.1.symm, ?_⟩
    have h3 := h2.2
    simp at h3
    exact h3.symm
  · right
    have h3 : xs ++ [x] = (l ++ a :: r2) ++ [y] := by
      rw [h]
      simp
    have h4 := List.append_inj' h3 rfl
    have hxy : x = y := by
      have h5 := h4.2
      simp at h5
      exact h5
    exact ⟨r2, by rw [hxy], h4.1⟩

/-- C7: starting from the freshly installed state, the interrupt-pending
flag is true after a sequence of callback invocations exactly when some
invocation of the idle callback caught a KeyboardInterrupt and no
restoration callback (which unconditionally resets the flag) has run
since; no other operation sets the flag. -/
theorem got_kbdint_iff_interrupt_since_prompt (evs : List SessionEvent) :
    (runSession initHookState evs).got_kbdint = true ↔
      ∃ l env r, evs = l ++ SessionEvent.idle env :: r ∧
        interruptCaught env = true ∧ SessionEvent.preprompt ∉ r := by
  induction evs using List.reverseRecOn with
  | nil =>
    constructor
    · intro h
      simp [runSession, initHookState] at h
    · rintro ⟨l, env, r, hsplit, -, -⟩
      have hlen : ([] : List SessionEvent).length =
          (l ++ SessionEvent.idle env :: r).length := by rw [hsplit]
      simp at hlen
      omega
  | append_singleton evs e ih =>
    rw [runSession_snoc]
    cases e with
    | preprompt =>
      rw [step_preprompt_got_kbdint]
      constructor
      · intro h
        cases h
      · rintro ⟨l, env, r, hsplit, hic, hnr⟩
        rcases snoc_eq_append_cons evs SessionEvent.preprompt
            (SessionEvent.idle env) l r hsplit with ⟨-, -, hae⟩ | ⟨r2, hr, -⟩
        · cases hae
        · exact absurd (by rw [hr]; simp) hnr
    | idle env0 =>
      rw [show (stepSession (runSession initHookState evs)
            (SessionEvent.idle env0)).got_kbdint =
          ((runSession initHookState evs).got_kbdint || interruptCaught env0)
          from inputhook_qt4_got_kbdint env0 (runSession initHookState evs)]
      rw [Bool.or_eq_true]
      constructor
      · rintro (h | h)
        · obtain ⟨l, env, r, hsplit, hic, hnr⟩ := ih.mp h
          refine ⟨l, env, r ++ [SessionEvent.idle env0], by rw [hsplit]; simp,
            hic, ?_⟩
          intro hmem
          rcases List.mem_append.mp hmem with hm | hm
          · exact hnr hm
          · simp at hm
        · exact ⟨evs, env0, [], rfl, h, by simp⟩
      · rintro ⟨l, env, r, hsplit, hic, hnr⟩
        rcases snoc_eq_append_cons evs (SessionEvent.idle env0)
            (SessionEvent.idle env) l r hsplit with ⟨-, -, hae⟩ | ⟨r2, hr, hxs⟩
        · injection hae with henv
          subst henv
          exact Or.inr hic
        · left
          apply ih.mpr
          refine ⟨l, env, r2, hxs, hic, ?_⟩
          intro hm
          exact hnr (by rw [hr]; exact List.mem_append_left _ hm)

end InputHookQt4
